import Mathlib

/-!
Shallow embedding of the runtime core of `express-type-safe-routes`:
the validation middleware (src/validation/middleware.ts), the route
definition builder (src/route/route.ts), the fluent route builder
(src/route/RouteBuilder.ts) and the typed router registration wrapper
(src/router/TypedRouter.ts), together with proofs of the spec claims.
-/

namespace ETS

/-- A JSON-like runtime value (request fields, parsed data). -/
inductive Value where
  | vnull
  | vstr (s : String)
  | vnum (n : Int)
  | vbool (b : Bool)
  deriving DecidableEq, Repr

/-- An opaque validator issue (zod's `ZodIssue`); this layer never
inspects it, only passes it through. -/
structure Issue where
  code : String
  message : String
  deriving DecidableEq, Repr

/-- Outcome of zod's `safeParse`: `success` with parsed data or
`failure` with the structured issue list. -/
inductive ParseResult where
  | success (data : Value)
  | failure (issues : List Issue)
  deriving DecidableEq, Repr

/-- An external schema capability: validate a value, returning either the
canonicalized value or a structured list of issues (`schema.safeParse`). -/
def Schema := Value → ParseResult

/-- `ValidationSchemas` of src/validation/middleware.ts: up to three
optional schemas. -/
structure ValidationSchemas where
  body : Option Schema := none
  query : Option Schema := none
  params : Option Schema := none

/-- The three validated request locations. -/
inductive Location where
  | body
  | query
  | params
  deriving DecidableEq, Repr

/-- `ValidationError` of src/validation/middleware.ts. -/
structure ValidationError where
  location : Location
  issues : List Issue
  deriving DecidableEq, Repr

/-- The three request fields this layer reads/writes. -/
structure Request where
  body : Value
  query : Value
  params : Value
  deriving DecidableEq, Repr

/-- The JSON body written on validation failure:
`{ error: "Validation failed", details: <error list> }`. -/
structure ErrorBody where
  error : String
  details : List ValidationError
  deriving DecidableEq, Repr

/-- Observable effects of one middleware invocation on the response /
continuation: `res.status(c)`, `res.json(b)`, `next()`. -/
inductive Event where
  | statusWrite (code : Nat)
  | jsonWrite (b : ErrorBody)
  | nextCall
  deriving DecidableEq, Repr

/-- `createValidationMiddleware` (src/validation/middleware.ts, lines
15-56): runs each configured schema against the corresponding request
field in the fixed order body, query, params; on success replaces the
field with the parsed data, on failure appends `{location, issues}` to
the error list; finally either writes a 400 response (without calling
the continuation) or calls `next()`.  The returned `Request` is the
request object's final field state; the `List Event` is the trace of
response/continuation effects. -/
def createValidationMiddleware (schemas : ValidationSchemas) (req : Request) :
    Request × List Event :=
  let errors : List ValidationError := []
  let afterBody : Request × List ValidationError :=
    match schemas.body with
    | none => (req, errors)
    | some s =>
      match s req.body with
      | ParseResult.failure issues =>
          (req, errors ++ [{ location := Location.body, issues := issues }])
      | ParseResult.success d => ({ req with body := d }, errors)
  let afterQuery : Request × List ValidationError :=
    match schemas.query with
    | none => afterBody
    | some s =>
      match s afterBody.1.query with
      | ParseResult.failure issues =>
          (afterBody.1, afterBody.2 ++ [{ location := Location.query, issues := issues }])
      | ParseResult.success d => ({ afterBody.1 with query := d }, afterBody.2)
  let afterParams : Request × List ValidationError :=
    match schemas.params with
    | none => afterQuery
    | some s =>
      match s afterQuery.1.params with
      | ParseResult.failure issues =>
          (afterQuery.1, afterQuery.2 ++ [{ location := Location.params, issues := issues }])
      | ParseResult.success d => ({ afterQuery.1 with params := d }, afterQuery.2)
  if afterParams.2.length > 0 then
    (afterParams.1,
     [Event.statusWrite 400,
      Event.jsonWrite { error := "Validation failed", details := afterParams.2 }])
  else
    (afterParams.1, [Event.nextCall])

/-- Field lookup on a request by location. -/
def Request.get (req : Request) : Location → Value
  | Location.body => req.body
  | Location.query => req.query
  | Location.params => req.params

/-- Field update on a request by location. -/
def Request.set (req : Request) : Location → Value → Request
  | Location.body, v => { req with body := v }
  | Location.query, v => { req with query := v }
  | Location.params, v => { req with params := v }

/-- Schema lookup by location. -/
def ValidationSchemas.get (schemas : ValidationSchemas) : Location → Option Schema
  | Location.body => schemas.body
  | Location.query => schemas.query
  | Location.params => schemas.params

/-- The validator's verdict for a location on the incoming request:
`none` when the location has no configured schema. -/
def locParse (schemas : ValidationSchemas) (req : Request) (loc : Location) :
    Option ParseResult :=
  match schemas.get loc with
  | none => none
  | some s => some (s (req.get loc))

/-- Whether a configured location fails validation on the incoming request. -/
def locFailed (schemas : ValidationSchemas) (req : Request) (loc : Location) : Bool :=
  match locParse schemas req loc with
  | some (ParseResult.failure _) => true
  | _ => false

/-- The validator's verbatim issue list for a failing location (empty
when the location does not fail). -/
def failIssues (schemas : ValidationSchemas) (req : Request) (loc : Location) :
    List Issue :=
  match locParse schemas req loc with
  | some (ParseResult.failure issues) => issues
  | _ => []

/-- The canonical final value of a field: the parsed data on success,
the original value otherwise (failure or no schema). -/
def canonField (schemas : ValidationSchemas) (req : Request) (loc : Location) : Value :=
  match locParse schemas req loc with
  | some (ParseResult.success d) => d
  | _ => req.get loc

/-- The failing locations in the fixed check order body, query, params. -/
def failingLocs (schemas : ValidationSchemas) (req : Request) : List Location :=
  [Location.body, Location.query, Location.params].filter (locFailed schemas req)

/-- The aggregated error list the middleware builds: one entry per
failing location, in check order, carrying the validator's verbatim issues. -/
def expectedDetails (schemas : ValidationSchemas) (req : Request) :
    List ValidationError :=
  (failingLocs schemas req).map
    (fun loc => { location := loc, issues := failIssues schemas req loc })

/-- Characterization of one middleware invocation: the final request has
every configured-and-successful field canonicalized, and the effect trace
is either a single `next()` call (no failures) or exactly one
status-400 write followed by exactly one JSON write of the aggregated
error list. -/
theorem createValidationMiddleware_eq (schemas : ValidationSchemas) (req : Request) :
    createValidationMiddleware schemas req =
      ({ body := canonField schemas req Location.body,
         query := canonField schemas req Location.query,
         params := canonField schemas req Location.params },
       if expectedDetails schemas req = [] then [Event.nextCall]
       else
         [Event.statusWrite 400,
          Event.jsonWrite { error := "Validation failed",
                            details := expectedDetails schemas req }]) := by
  obtain ⟨ob, oq, op⟩ := schemas
  obtain ⟨vb, vq, vp⟩ := req
  rcases ob with _ | sb <;> rcases oq with _ | sq <;> rcases op with _ | sp <;>
    simp only [createValidationMiddleware, canonField, expectedDetails, failingLocs,
      locFailed, failIssues, locParse, ValidationSchemas.get, Request.get,
      List.filter, List.map] <;>
    first
    | rfl
    | (try rcases hb : sb vb with db | ib) <;>
      (try rcases hq : sq vq with dq | iq) <;>
      (try rcases hp : sp vp with dp | ip) <;>
      simp_all

/-- The failing-locations list, split by location in check order. -/
theorem failingLocs_eq (schemas : ValidationSchemas) (req : Request) :
    failingLocs schemas req =
      (if locFailed schemas req Location.body then [Location.body] else []) ++
      (if locFailed schemas req Location.query then [Location.query] else []) ++
      (if locFailed schemas req Location.params then [Location.params] else []) := by
  cases hb : locFailed schemas req Location.body <;>
  cases hq : locFailed schemas req Location.query <;>
  cases hp : locFailed schemas req Location.params <;>
  simp [failingLocs, hb, hq, hp]

theorem mem_failingLocs (schemas : ValidationSchemas) (req : Request) (loc : Location) :
    loc ∈ failingLocs schemas req ↔ locFailed schemas req loc = true := by
  cases loc <;> simp [failingLocs]

/-- The aggregated detail list, split by location in check order. -/
theorem expectedDetails_eq (schemas : ValidationSchemas) (req : Request) :
    expectedDetails schemas req =
      (if locFailed schemas req Location.body then
        [{ location := Location.body, issues := failIssues schemas req Location.body }] else []) ++
      (if locFailed schemas req Location.query then
        [{ location := Location.query, issues := failIssues schemas req Location.query }] else []) ++
      (if locFailed schemas req Location.params then
        [{ location := Location.params, issues := failIssues schemas req Location.params }] else []) := by
  cases hb : locFailed schemas req Location.body <;>
  cases hq : locFailed schemas req Location.query <;>
  cases hp : locFailed schemas req Location.params <;>
  simp [expectedDetails, failingLocs, hb, hq, hp]

theorem expectedDetails_nil_iff (schemas : ValidationSchemas) (req : Request) :
    expectedDetails schemas req = [] ↔ ∀ loc, locFailed schemas req loc = false := by
  constructor
  · intro h loc
    by_contra hc
    have hmem : loc ∈ failingLocs schemas req :=
      (mem_failingLocs schemas req loc).2 (Bool.not_eq_false _ ▸ hc)
    have : failingLocs schemas req = [] := by
      simpa [expectedDetails, List.map_eq_nil_iff] using h
    simp [this] at hmem
  · intro h
    simp [expectedDetails, failingLocs_eq, h Location.body, h Location.query, h Location.params]

/-- C1: when at least one configured location fails validation (and the
external validator honours its contract of reporting a nonempty issue
list on failure), the middleware never calls the continuation, its effect
trace is exactly one status-400 write followed by exactly one JSON write
of `{ error: "Validation failed", details: <error list> }`, and the
detail list has exactly one entry per failing location, each pairing
that location with the validator's nonempty issue list. -/
theorem validation_single_shot_rejection (schemas : ValidationSchemas) (req : Request)
    (hfail : ∃ loc, locFailed schemas req loc = true)
    (hcontract : ∀ loc, locFailed schemas req loc = true →
      failIssues schemas req loc ≠ []) :
    (createValidationMiddleware schemas req).2 =
      [Event.statusWrite 400,
       Event.jsonWrite { error := "Validation failed",
                         details := expectedDetails schemas req }] ∧
    Event.nextCall ∉ (createValidationMiddleware schemas req).2 ∧
    (∀ loc, ((expectedDetails schemas req).filter
        (fun e => e.location = loc)).length =
        if locFailed schemas req loc then 1 else 0) ∧
    (∀ e ∈ expectedDetails schemas req,
      locFailed schemas req e.location = true ∧
      e.issues = failIssues schemas req e.location ∧ e.issues ≠ []) := by
  obtain ⟨loc0, hloc0⟩ := hfail
  have hne : expectedDetails schemas req ≠ [] := by
    intro h
    exact absurd ((expectedDetails_nil_iff schemas req).1 h loc0) (by simp [hloc0])
  have htrace := createValidationMiddleware_eq schemas req
  refine ⟨?_, ?_, ?_, ?_⟩
  · rw [htrace]; simp [hne]
  · rw [htrace]; simp [hne]
  · intro loc
    cases hb : locFailed schemas req Location.body <;>
    cases hq : locFailed schemas req Location.query <;>
    cases hp : locFailed schemas req Location.params <;>
    cases loc <;>
    simp [expectedDetails_eq, hb, hq, hp, List.filter_append]
  · intro e he
    rw [expectedDetails_eq] at he
    rcases List.mem_append.1 he with he1 | he2
    · rcases List.mem_append.1 he1 with he3 | he4
      · rcases hb : locFailed schemas req Location.body <;> rw [hb] at he3 <;>
          simp at he3
        subst he3
        exact ⟨hb, rfl, hcontract Location.body hb⟩
      · rcases hq : locFailed schemas req Location.query <;> rw [hq] at he4 <;>
          simp at he4
        subst he4
        exact ⟨hq, rfl, hcontract Location.query hq⟩
    · rcases hp : locFailed schemas req Location.params <;> rw [hp] at he2 <;>
        simp at he2
      subst he2
      exact ⟨hp, rfl, hcontract Location.params hp⟩

/-- A validator that rejects every value with a single issue (e.g. a zod
string schema applied to a non-string). -/
def wSchemaReject : Schema := fun _ =>
  ParseResult.failure [{ code := "invalid_type", message := "Expected string" }]

/-- A number-coercion validator: accepts a numeric string or a number and
canonicalizes to the number, rejects anything else (e.g. `z.coerce.number()`). -/
def wSchemaNum : Schema := fun v =>
  match v with
  | Value.vstr "1" => ParseResult.success (Value.vnum 1)
  | Value.vstr "2" => ParseResult.success (Value.vnum 2)
  | Value.vstr "3" => ParseResult.success (Value.vnum 3)
  | Value.vnum n => ParseResult.success (Value.vnum n)
  | _ => ParseResult.failure [{ code := "invalid_type", message := "Expected number, received nan" }]

/-- A request whose three fields are strings. -/
def wReq : Request :=
  { body := Value.vstr "not-an-email", query := Value.vstr "2", params := Value.vstr "abc" }

/-- Schema set with only a (rejecting) body schema. -/
def wSchemasBodyFail : ValidationSchemas := { body := some wSchemaReject }

theorem validation_single_shot_rejection_witness :
    (createValidationMiddleware wSchemasBodyFail wReq).2 =
      [Event.statusWrite 400,
       Event.jsonWrite { error := "Validation failed",
                         details := expectedDetails wSchemasBodyFail wReq }] :=
  (validation_single_shot_rejection wSchemasBodyFail wReq
    ⟨Location.body, by decide⟩ (fun loc => by cases loc <;> decide)).1

/-- C2: when every configured location satisfies its schema, the
middleware's effect trace is exactly one `next()` call (the continuation
runs exactly once, no response is written), and before that each
configured location's field has been replaced with the schema's
canonicalized output. -/
theorem validation_pass_through (schemas : ValidationSchemas) (req : Request)
    (hall : ∀ loc, locFailed schemas req loc = false) :
    (createValidationMiddleware schemas req).2 = [Event.nextCall] ∧
    (∀ loc s d, schemas.get loc = some s →
      s (req.get loc) = ParseResult.success d →
      (createValidationMiddleware schemas req).1.get loc = d) := by
  have hnil : expectedDetails schemas req = [] :=
    (expectedDetails_nil_iff schemas req).2 hall
  have htrace := createValidationMiddleware_eq schemas req
  constructor
  · rw [htrace]; simp [hnil]
  · intro loc s d hs hd
    rw [htrace]
    cases loc <;>
      simp [ValidationSchemas.get] at hs <;>
      simp [Request.get] at hd <;>
      simp [Request.get, canonField, locParse, ValidationSchemas.get, hs, hd]

/-- Schema set with only a number-coercing query schema. -/
def wSchemasQueryNum : ValidationSchemas := { query := some wSchemaNum }

theorem validation_pass_through_witness :
    (createValidationMiddleware wSchemasQueryNum wReq).2 = [Event.nextCall] ∧
    (createValidationMiddleware wSchemasQueryNum wReq).1.get Location.query =
      Value.vnum 2 :=
  ⟨(validation_pass_through wSchemasQueryNum wReq
      (fun loc => by cases loc <;> decide)).1,
   (validation_pass_through wSchemasQueryNum wReq
      (fun loc => by cases loc <;> decide)).2
     Location.query wSchemaNum (Value.vnum 2) rfl (by decide)⟩

/-- A location that fails has `locParse` equal to a failure carrying
exactly `failIssues`. -/
theorem locFailed_spec (schemas : ValidationSchemas) (req : Request) (loc : Location)
    (hf : locFailed schemas req loc = true) :
    locParse schemas req loc =
      some (ParseResult.failure (failIssues schemas req loc)) := by
  unfold locFailed at hf
  unfold failIssues
  rcases h : locParse schemas req loc with _ | pr
  · rw [h] at hf; simp at hf
  · rcases pr with d | issues
    · rw [h] at hf; simp at hf
    · simp

/-- C3: the locations are checked in the fixed order body, query,
params, so the aggregated detail list is ordered body-then-query-then-
params for whichever locations failed (first conjunct); the trace on
failure carries exactly that list (second conjunct); and each failing
location's entry holds the external validator's verbatim output for that
location (third conjunct). -/
theorem validation_detail_order (schemas : ValidationSchemas) (req : Request) :
    expectedDetails schemas req =
      (if locFailed schemas req Location.body then
        [{ location := Location.body, issues := failIssues schemas req Location.body }] else []) ++
      (if locFailed schemas req Location.query then
        [{ location := Location.query, issues := failIssues schemas req Location.query }] else []) ++
      (if locFailed schemas req Location.params then
        [{ location := Location.params, issues := failIssues schemas req Location.params }] else []) ∧
    (createValidationMiddleware schemas req).2 =
      (if expectedDetails schemas req = [] then [Event.nextCall]
       else
         [Event.statusWrite 400,
          Event.jsonWrite { error := "Validation failed",
                            details := expectedDetails schemas req }]) ∧
    (∀ loc s, schemas.get loc = some s → locFailed schemas req loc = true →
      s (req.get loc) = ParseResult.failure (failIssues schemas req loc)) := by
  refine ⟨expectedDetails_eq schemas req, ?_, ?_⟩
  · rw [createValidationMiddleware_eq]
  · intro loc s hs hf
    have h1 : locParse schemas req loc = some (s (req.get loc)) := by
      unfold locParse; rw [hs]
    have h2 := locFailed_spec schemas req loc hf
    rw [h1] at h2
    exact Option.some.inj h2

/-- Schema set where both body and query are configured and both will
fail on `wReq2`. -/
def wSchemasBothFail : ValidationSchemas :=
  { body := some wSchemaReject, query := some wSchemaNum }

/-- A request whose query is not numeric. -/
def wReq2 : Request :=
  { body := Value.vnum 7, query := Value.vstr "abc", params := Value.vnull }

theorem validation_detail_order_witness :
    wSchemaReject (wReq2.get Location.body) =
      ParseResult.failure (failIssues wSchemasBothFail wReq2 Location.body) ∧
    wSchemaNum (wReq2.get Location.query) =
      ParseResult.failure (failIssues wSchemasBothFail wReq2 Location.query) ∧
    expectedDetails wSchemasBothFail wReq2 =
      [{ location := Location.body,
         issues := [{ code := "invalid_type", message := "Expected string" }] },
       { location := Location.query,
         issues := [{ code := "invalid_type", message := "Expected number, received nan" }] }] :=
  ⟨(validation_detail_order wSchemasBothFail wReq2).2.2 Location.body wSchemaReject
      rfl (by decide),
   (validation_detail_order wSchemasBothFail wReq2).2.2 Location.query wSchemaNum
      rfl (by decide),
   by decide⟩

/-- C7: an unconfigured location is inert — its field survives unchanged,
and the middleware's behaviour (trace and all other fields) is invariant
under arbitrary changes to that field, i.e. the field is never read; and
a configured location whose validation fails keeps its original value. -/
theorem validation_frame (schemas : ValidationSchemas) (req : Request) (loc : Location) :
    (schemas.get loc = none →
      (createValidationMiddleware schemas req).1.get loc = req.get loc ∧
      ∀ v,
        (createValidationMiddleware schemas (req.set loc v)).2 =
          (createValidationMiddleware schemas req).2 ∧
        (createValidationMiddleware schemas (req.set loc v)).1 =
          ((createValidationMiddleware schemas req).1.set loc v)) ∧
    (locFailed schemas req loc = true →
      (createValidationMiddleware schemas req).1.get loc = req.get loc) := by
  constructor
  · intro hnone
    have hget : ∀ v loc2, loc2 ≠ loc → (req.set loc v).get loc2 = req.get loc2 := by
      intro v loc2 h
      cases loc <;> cases loc2 <;> simp_all [Request.get, Request.set]
    have hLP : ∀ v loc2, locParse schemas (req.set loc v) loc2 = locParse schemas req loc2 := by
      intro v loc2
      rcases Decidable.eq_or_ne loc2 loc with h | h
      · subst h; unfold locParse; rw [hnone]
      · unfold locParse; rw [hget v loc2 h]
    have hLF : ∀ v, locFailed schemas (req.set loc v) = locFailed schemas req := by
      intro v; funext loc2; unfold locFailed; rw [hLP v loc2]
    have hFI : ∀ v, failIssues schemas (req.set loc v) = failIssues schemas req := by
      intro v; funext loc2; unfold failIssues; rw [hLP v loc2]
    have hED : ∀ v, expectedDetails schemas (req.set loc v) = expectedDetails schemas req := by
      intro v; unfold expectedDetails failingLocs; simp only [hLF v, hFI v]
    have hCF : ∀ v loc2, loc2 ≠ loc →
        canonField schemas (req.set loc v) loc2 = canonField schemas req loc2 := by
      intro v loc2 h
      unfold canonField
      rw [hLP v loc2, hget v loc2 h]
    have hCFloc : ∀ v, canonField schemas (req.set loc v) loc = v := by
      intro v
      unfold canonField locParse
      rw [hnone]
      cases loc <;> simp [Request.get, Request.set]
    have hCFr : canonField schemas req loc = req.get loc := by
      unfold canonField locParse; rw [hnone]
    constructor
    · rw [createValidationMiddleware_eq]
      cases loc <;> simpa [Request.get] using hCFr
    · intro v
      constructor
      · rw [createValidationMiddleware_eq, createValidationMiddleware_eq, hED v]
      · rw [createValidationMiddleware_eq, createValidationMiddleware_eq]
        cases loc with
        | body =>
            rw [hCFloc v, hCF v Location.query (by decide),
              hCF v Location.params (by decide)]
            simp [Request.set]
        | query =>
            rw [hCFloc v, hCF v Location.body (by decide),
              hCF v Location.params (by decide)]
            simp [Request.set]
        | params =>
            rw [hCFloc v, hCF v Location.body (by decide),
              hCF v Location.query (by decide)]
            simp [Request.set]
  · intro hf
    have hcanon : canonField schemas req loc = req.get loc := by
      have h2 := locFailed_spec schemas req loc hf
      unfold canonField
      rw [h2]
    cases loc <;>
      rw [createValidationMiddleware_eq] <;>
      simpa [Request.get] using hcanon

theorem validation_frame_witness :
    (createValidationMiddleware wSchemasBodyFail wReq).1.get Location.query =
      wReq.get Location.query ∧
    (createValidationMiddleware wSchemasBodyFail wReq).1.get Location.body =
      wReq.get Location.body :=
  ⟨((validation_frame wSchemasBodyFail wReq Location.query).1 rfl).1,
   (validation_frame wSchemasBodyFail wReq Location.body).2 (by decide)⟩

/-- C9: validation failure is not atomic with respect to the request:
when some configured location fails but another configured location
succeeds, the succeeding location's field is still replaced with its
canonicalized value even though the 400 response is emitted and the
handler never runs. -/
theorem validation_not_atomic (schemas : ValidationSchemas) (req : Request)
    (loc locF : Location) (s : Schema) (d : Value)
    (hs : schemas.get loc = some s)
    (hd : s (req.get loc) = ParseResult.success d)
    (hfail : locFailed schemas req locF = true) :
    (createValidationMiddleware schemas req).1.get loc = d ∧
    (createValidationMiddleware schemas req).2 =
      [Event.statusWrite 400,
       Event.jsonWrite { error := "Validation failed",
                         details := expectedDetails schemas req }] := by
  have hne : expectedDetails schemas req ≠ [] := by
    intro h
    exact absurd ((expectedDetails_nil_iff schemas req).1 h locF) (by simp [hfail])
  constructor
  · rw [createValidationMiddleware_eq]
    cases loc <;>
      simp [ValidationSchemas.get] at hs <;>
      simp [Request.get] at hd <;>
      simp [Request.get, canonField, locParse, ValidationSchemas.get, hs, hd]
  · rw [createValidationMiddleware_eq]
    simp [hne]

/-- Schema set where body is configured and fails while query is
configured and succeeds (with coercion). -/
def wSchemasMixed : ValidationSchemas :=
  { body := some wSchemaReject, query := some wSchemaNum }

theorem validation_not_atomic_witness :
    (createValidationMiddleware wSchemasMixed wReq).1.get Location.query =
      Value.vnum 2 :=
  (validation_not_atomic wSchemasMixed wReq Location.query Location.body
    wSchemaNum (Value.vnum 2) rfl (by decide) (by decide)).1

/-- A processing step: one express `RequestHandler` in the embedding —
its observable behaviour on the request fields and response/continuation. -/
abbrev Step := Request → Request × List Event

/-- `RouteSchemas` of src/types.ts: a body/query/params schema set plus a
compile-time-only response-schema-by-status map. -/
structure RouteSchemas where
  body : Option Schema := none
  query : Option Schema := none
  params : Option Schema := none
  response : List (Nat × Schema) := []

/-- `RouteDefinition` of src/types.ts: the schema set plus the derived
middleware list.  The `__brand: 'RouteDefinition'` discriminant of the
source is represented by membership in this type (the registration
wrapper's argument sum below tags it explicitly). -/
structure RouteDefinition where
  schemas : RouteSchemas
  middleware : List Step

/-- `route` (src/route/route.ts): pushes exactly one validation
middleware built from the body/query/params fields when at least one of
them is present, otherwise leaves the middleware list empty; carries the
schema set unchanged. -/
def route (schemas : RouteSchemas) : RouteDefinition :=
  let middleware : List Step :=
    if schemas.body.isSome || schemas.query.isSome || schemas.params.isSome then
      [createValidationMiddleware
        { body := schemas.body, query := schemas.query, params := schemas.params }]
    else
      []
  { schemas := schemas, middleware := middleware }

/-- One variadic argument of a wrapped registration call
(src/router/TypedRouter.ts `wrap`): a value carrying the
`__brand: 'RouteDefinition'` marker, a callable handler/middleware, or
anything else (for which `isRouteDefinition` and `typeof === 'function'`
are both false). -/
inductive RegArg where
  | routeDef (d : RouteDefinition)
  | fn (h : Step)
  | other (v : Value)

/-- The steps one argument contributes to the flattened registration list. -/
def RegArg.steps : RegArg → List Step
  | RegArg.routeDef d => d.middleware
  | RegArg.fn h => [h]
  | RegArg.other _ => []

/-- The `handlers.forEach` loop of `wrap` (src/router/TypedRouter.ts,
lines 80-91): left-to-right over the arguments, splice a route
definition's middleware list, push a callable as-is, drop anything else;
the result is handed to the underlying router method. -/
def wrapFlatten (handlers : List RegArg) : List Step :=
  handlers.foldl
    (fun flattened handler =>
      match handler with
      | RegArg.routeDef d => flattened ++ d.middleware
      | RegArg.fn h => flattened ++ [h]
      | RegArg.other _ => flattened)
    []

theorem wrapFlatten_foldl (handlers : List RegArg) (acc : List Step) :
    handlers.foldl
      (fun flattened handler =>
        match handler with
        | RegArg.routeDef d => flattened ++ d.middleware
        | RegArg.fn h => flattened ++ [h]
        | RegArg.other _ => flattened)
      acc = acc ++ (handlers.map RegArg.steps).flatten := by
  induction handlers generalizing acc with
  | nil => simp
  | cons a rest ih =>
    cases a <;> simp [RegArg.steps, List.foldl_cons, ih, List.append_assoc]

/-- The flattened list is the order-preserving concatenation of each
argument's contributed steps. -/
theorem wrapFlatten_eq (handlers : List RegArg) :
    wrapFlatten handlers = (handlers.map RegArg.steps).flatten := by
  simpa using wrapFlatten_foldl handlers []

/-- C4: registration preserves argument order — the flattened list is the
concatenation, in argument order, of each route definition's middleware
sequence (in its original order) and each plain callable; in particular
registering `(path, routeDefA, middlewareB, routeDefC, handlerD)` yields
`stepsOf(A) ++ [B] ++ stepsOf(C) ++ [D]`. -/
theorem registration_order_preserved :
    (∀ handlers : List RegArg,
      wrapFlatten handlers = (handlers.map RegArg.steps).flatten) ∧
    (∀ (a c : RouteDefinition) (b d : Step),
      wrapFlatten [RegArg.routeDef a, RegArg.fn b, RegArg.routeDef c, RegArg.fn d] =
        a.middleware ++ [b] ++ c.middleware ++ [d]) := by
  refine ⟨wrapFlatten_eq, ?_⟩
  intro a c b d
  simp [wrapFlatten_eq, RegArg.steps, List.append_assoc]

/-- C8: an argument that is neither a route definition nor a callable is
silently dropped — the flattened list is the one of the argument list
with that argument removed, and no error is raised (the wrapper is total). -/
theorem registration_drops_noncallable (pre post : List RegArg) (v : Value) :
    wrapFlatten (pre ++ RegArg.other v :: post) = wrapFlatten (pre ++ post) := by
  simp [wrapFlatten_eq, RegArg.steps]

/-- C5: `route` produces exactly one validation middleware iff at least
one of body/query/params is present, an empty step list otherwise
(including a response-only or empty schema set), and carries the schema
set unchanged. -/
theorem route_definition_shape (s : RouteSchemas) :
    (route s).schemas = s ∧
    ((s.body.isSome || s.query.isSome || s.params.isSome) = true →
      (route s).middleware =
        [createValidationMiddleware
          { body := s.body, query := s.query, params := s.params }] ∧
      (route s).middleware.length = 1) ∧
    ((s.body.isSome || s.query.isSome || s.params.isSome) = false →
      (route s).middleware = []) := by
  refine ⟨rfl, ?_, ?_⟩
  · intro h
    simp [route, h]
  · intro h
    simp [route, h]

/-- A response-only schema set. -/
def wSchemasRespOnly : RouteSchemas := { response := [(200, wSchemaNum)] }

/-- A body-only schema set. -/
def wSchemasBodyOnly : RouteSchemas := { body := some wSchemaReject }

theorem route_definition_shape_witness :
    (route wSchemasRespOnly).middleware = [] ∧
    (route wSchemasBodyOnly).middleware.length = 1 :=
  ⟨(route_definition_shape wSchemasRespOnly).2.2 rfl,
   ((route_definition_shape wSchemasBodyOnly).2.1 rfl).2⟩

/-- A heap of JS arrays of steps, indexed by allocation order; models the
identity and in-place mutation of the arrays held/returned by the fluent
`RouteBuilder` (src/route/RouteBuilder.ts). -/
abbrev Heap := List (List Step)

/-- The fluent `RouteBuilder`'s mutable fields; `middlewaresId` is the
heap index of its private `middlewares` array. -/
structure RouteBuilder where
  bodySchema : Option Schema := none
  querySchema : Option Schema := none
  paramsSchema : Option Schema := none
  responseSchemas : List (Nat × Schema) := []
  middlewaresId : Nat

/-- `typedRoute()` (src/route/RouteBuilder.ts, line 70): a new builder
with no schemas and a freshly allocated empty `middlewares` array. -/
def typedRoute (h : Heap) : RouteBuilder × Heap :=
  ({ bodySchema := none, querySchema := none, paramsSchema := none,
     responseSchemas := [], middlewaresId := h.length },
   List.append h [[]])

/-- Object-spread overwrite for the response-schema-by-status map:
`{ ...this.responseSchemas, [status]: schema }`. -/
def respInsert (m : List (Nat × Schema)) (status : Nat) (s : Schema) :
    List (Nat × Schema) :=
  List.append (m.filter (fun p => p.1 ≠ status)) [(status, s)]

/-- `handler(fn)` (src/route/RouteBuilder.ts, lines 51-67): build a fresh
array holding one validation middleware iff any of body/query/params was
set, then a copy of the current `middlewares` contents, then `fn`; return
its (fresh) heap index. -/
def RouteBuilder.handler (b : RouteBuilder) (fn : Step) (h : Heap) : Nat × Heap :=
  let result : List Step :=
    List.append
      (List.append
        (if b.bodySchema.isSome || b.querySchema.isSome || b.paramsSchema.isSome then
          [createValidationMiddleware
            { body := b.bodySchema, query := b.querySchema, params := b.paramsSchema }]
        else [])
        (h.getD b.middlewaresId []))
      [fn]
  (h.length, List.append h [result])

/-- One configuration call on the fluent builder. -/
inductive BuilderOp where
  | bodyOp (s : Schema)
  | queryOp (s : Schema)
  | paramsOp (s : Schema)
  | responseOp (status : Nat) (s : Schema)
  | useOp (m : Step)

/-- The effect of one configuration call (src/route/RouteBuilder.ts,
lines 18-49): `body`/`query`/`params`/`response` overwrite a field of the
builder; `use` pushes onto the builder's `middlewares` array in place. -/
def applyOp (op : BuilderOp) (st : RouteBuilder × Heap) : RouteBuilder × Heap :=
  match op with
  | BuilderOp.bodyOp s => ({ st.1 with bodySchema := some s }, st.2)
  | BuilderOp.queryOp s => ({ st.1 with querySchema := some s }, st.2)
  | BuilderOp.paramsOp s => ({ st.1 with paramsSchema := some s }, st.2)
  | BuilderOp.responseOp status s =>
      ({ st.1 with responseSchemas := respInsert st.1.responseSchemas status s }, st.2)
  | BuilderOp.useOp m =>
      (st.1, st.2.set st.1.middlewaresId
        (List.append (st.2.getD st.1.middlewaresId []) [m]))

/-- A chain of configuration calls, applied left to right. -/
def applyOps (ops : List BuilderOp) (st : RouteBuilder × Heap) : RouteBuilder × Heap :=
  ops.foldl (fun st op => applyOp op st) st

/-- The custom middlewares pushed by the `use` calls of a chain, in call
order. -/
def usedSteps (ops : List BuilderOp) : List Step :=
  ops.filterMap (fun op =>
    match op with
    | BuilderOp.useOp m => some m
    | _ => none)

/-- Whether a configuration call sets one of body/query/params. -/
def isSchemaOp : BuilderOp → Bool
  | BuilderOp.bodyOp _ => true
  | BuilderOp.queryOp _ => true
  | BuilderOp.paramsOp _ => true
  | _ => false

/-- Whether a builder has any of body/query/params set. -/
def anySchema (b : RouteBuilder) : Bool :=
  b.bodySchema.isSome || b.querySchema.isSome || b.paramsSchema.isSome

theorem list_getD_append_len {α : Type} (l : List α) (x : α) (d : α) :
    (l ++ [x]).getD l.length d = x := by
  induction l with
  | nil => rfl
  | cons a rest ih => simp

theorem list_set_append_len {α : Type} (l : List α) (x y : α) :
    (l ++ [x]).set l.length y = l ++ [y] := by
  induction l with
  | nil => rfl
  | cons a rest ih => simp

theorem list_getD_set_ne {α : Type} (l : List α) (i j : Nat) (x d : α)
    (hij : i ≠ j) : (l.set i x).getD j d = l.getD j d := by
  induction l generalizing i j with
  | nil => simp [List.set]
  | cons a rest ih =>
    cases i with
    | zero =>
      cases j with
      | zero => exact absurd rfl hij
      | succ j2 => simp [List.set, List.getD]
    | succ i2 =>
      cases j with
      | zero => simp [List.set, List.getD]
      | succ j2 =>
        simp only [List.set, List.getD_cons_succ]
        exact ih i2 j2 (fun h => hij (by rw [h]))

/-- Running a chain of configuration calls on a builder whose
`middlewares` array is the last heap cell: the id is stable, the heap
keeps its shape with the `use`-pushed steps appended in call order, and
the builder ends with a body/query/params schema set iff it started with
one or the chain contains a schema call. -/
theorem applyOps_spec (ops : List BuilderOp) (b : RouteBuilder) (h0 : Heap)
    (ms : List Step) (hid : b.middlewaresId = h0.length) :
    (applyOps ops (b, h0 ++ [ms])).1.middlewaresId = h0.length ∧
    (applyOps ops (b, h0 ++ [ms])).2 = h0 ++ [ms ++ usedSteps ops] ∧
    anySchema (applyOps ops (b, h0 ++ [ms])).1 = (anySchema b || ops.any isSchemaOp) := by
  induction ops generalizing b ms with
  | nil => simp [applyOps, hid, usedSteps]
  | cons op rest ih =>
    cases op with
    | bodyOp s =>
      have h := ih { b with bodySchema := some s } ms hid
      simpa [applyOps, applyOp, usedSteps, isSchemaOp, anySchema] using h
    | queryOp s =>
      have h := ih { b with querySchema := some s } ms hid
      simpa [applyOps, applyOp, usedSteps, isSchemaOp, anySchema] using h
    | paramsOp s =>
      have h := ih { b with paramsSchema := some s } ms hid
      simpa [applyOps, applyOp, usedSteps, isSchemaOp, anySchema] using h
    | responseOp status s =>
      have h := ih { b with responseSchemas := respInsert b.responseSchemas status s } ms hid
      simpa [applyOps, applyOp, usedSteps, isSchemaOp, anySchema] using h
    | useOp m =>
      have hset : ((h0 ++ [ms]).set b.middlewaresId
          (List.append ((h0 ++ [ms]).getD b.middlewaresId []) [m])) = h0 ++ [ms ++ [m]] := by
        rw [hid, list_getD_append_len, list_set_append_len]
        simp [List.append_eq]
      have h := ih b (ms ++ [m]) hid
      simp only [applyOps, List.foldl_cons, applyOp, hset] at h ⊢
      simpa [usedSteps, isSchemaOp, List.append_eq, List.append_assoc] using h

/-- The builder state and heap after running a fluent chain from
`typedRoute()`. -/
def chainState (h0 : Heap) (ops : List BuilderOp) : RouteBuilder × Heap :=
  applyOps ops (typedRoute h0)

/-- The (returned index, heap) pair produced by the terminal
`handler(fn)` call of a fluent chain. -/
def handlerResult (h0 : Heap) (ops : List BuilderOp) (fn : Step) : Nat × Heap :=
  (chainState h0 ops).1.handler fn (chainState h0 ops).2

/-- The step sequence returned by the terminal `handler(fn)` call of a
fluent chain: the contents of the fresh array at the returned heap index. -/
def buildSteps (h0 : Heap) (ops : List BuilderOp) (fn : Step) : List Step :=
  (handlerResult h0 ops fn).2.getD (handlerResult h0 ops fn).1 []

/-- `handler(fn)` allocates at the end of the heap, and the allocated
array holds: the validation step iff any schema is set, then a copy of
the current `middlewares` contents, then `fn`. -/
theorem handler_spec (b : RouteBuilder) (fn : Step) (h : Heap) :
    (b.handler fn h).1 = h.length ∧
    (b.handler fn h).2.getD h.length [] =
      (if anySchema b then
        [createValidationMiddleware
          { body := b.bodySchema, query := b.querySchema, params := b.paramsSchema }]
       else []) ++ h.getD b.middlewaresId [] ++ [fn] := by
  refine ⟨rfl, ?_⟩
  have hres : (b.handler fn h).2 =
      h ++ [(if anySchema b then
        [createValidationMiddleware
          { body := b.bodySchema, query := b.querySchema, params := b.paramsSchema }]
       else []) ++ h.getD b.middlewaresId [] ++ [fn]] := by
    simp [RouteBuilder.handler, anySchema, List.append_eq, List.append_assoc]
  rw [hres, list_getD_append_len]

/-- C6: for any fluent chain, the terminal `handler(fn)` call returns
the flat ordered sequence: one validation middleware (built from the
builder's body/query/params fields) iff at least one of body/query/params
was set during the chain, then every `use`d middleware in call order,
then `fn` last; a chain with only response calls yields exactly `[fn]`. -/
theorem fluent_handler_assembly (h0 : Heap) (ops : List BuilderOp) (fn : Step) :
    anySchema (chainState h0 ops).1 = ops.any isSchemaOp ∧
    buildSteps h0 ops fn =
      (if ops.any isSchemaOp then
        [createValidationMiddleware
          { body := (chainState h0 ops).1.bodySchema,
            query := (chainState h0 ops).1.querySchema,
            params := (chainState h0 ops).1.paramsSchema }]
       else []) ++ usedSteps ops ++ [fn] ∧
    (ops.any isSchemaOp = false → buildSteps h0 ops fn = usedSteps ops ++ [fn]) := by
  have hspec := applyOps_spec ops
    { bodySchema := none, querySchema := none, paramsSchema := none,
      responseSchemas := [], middlewaresId := h0.length } h0 [] rfl
  obtain ⟨hmid0, hheap0, hany0⟩ := hspec
  have hmid : (chainState h0 ops).1.middlewaresId = h0.length := hmid0
  have hheap : (chainState h0 ops).2 = h0 ++ [[] ++ usedSteps ops] := hheap0
  have hany : anySchema (chainState h0 ops).1 = ops.any isSchemaOp := by
    simpa [anySchema, chainState, typedRoute, List.append_eq] using hany0
  have hmain : buildSteps h0 ops fn =
      (if ops.any isSchemaOp then
        [createValidationMiddleware
          { body := (chainState h0 ops).1.bodySchema,
            query := (chainState h0 ops).1.querySchema,
            params := (chainState h0 ops).1.paramsSchema }]
       else []) ++ usedSteps ops ++ [fn] := by
    have hh := (handler_spec (chainState h0 ops).1 fn (chainState h0 ops).2).2
    have hbs : buildSteps h0 ops fn =
        ((chainState h0 ops).1.handler fn (chainState h0 ops).2).2.getD
          (chainState h0 ops).2.length [] := rfl
    rw [hbs, hh, hmid, hheap, list_getD_append_len, hany]
    simp
  refine ⟨hany, hmain, ?_⟩
  intro hno
  rw [hmain, hno]
  simp

/-- A trivial handler step fixture. -/
def wHandlerStep : Step := fun req => (req, [Event.nextCall])

theorem fluent_handler_assembly_witness :
    buildSteps [] [BuilderOp.responseOp 200 wSchemaNum] wHandlerStep =
      usedSteps [BuilderOp.responseOp 200 wSchemaNum] ++ [wHandlerStep] :=
  (fluent_handler_assembly [] [BuilderOp.responseOp 200 wSchemaNum] wHandlerStep).2.2 rfl

/-- A configuration call never changes the heap index of the builder's
`middlewares` array. -/
theorem applyOps_mid_invariant (ops : List BuilderOp) (b : RouteBuilder) (h : Heap) :
    (applyOps ops (b, h)).1.middlewaresId = b.middlewaresId := by
  induction ops generalizing b h with
  | nil => rfl
  | cons op rest ih =>
    cases op with
    | bodyOp s => exact ih { b with bodySchema := some s } h
    | queryOp s => exact ih { b with querySchema := some s } h
    | paramsOp s => exact ih { b with paramsSchema := some s } h
    | responseOp status s =>
        exact ih { b with responseSchemas := respInsert b.responseSchemas status s } h
    | useOp m =>
        exact ih b (h.set b.middlewaresId (List.append (h.getD b.middlewaresId []) [m]))

/-- Configuration calls only ever write the builder's own `middlewares`
array: every other heap cell is untouched. -/
theorem applyOps_heap_frame (ops : List BuilderOp) (b : RouteBuilder) (h : Heap)
    (j : Nat) (hj : j ≠ b.middlewaresId) :
    (applyOps ops (b, h)).2.getD j [] = h.getD j [] := by
  induction ops generalizing b h with
  | nil => rfl
  | cons op rest ih =>
    cases op with
    | bodyOp s => exact ih { b with bodySchema := some s } h hj
    | queryOp s => exact ih { b with querySchema := some s } h hj
    | paramsOp s => exact ih { b with paramsSchema := some s } h hj
    | responseOp status s =>
        exact ih { b with responseSchemas := respInsert b.responseSchemas status s } h hj
    | useOp m =>
        exact (ih b (h.set b.middlewaresId
            (List.append (h.getD b.middlewaresId []) [m])) hj).trans
          (list_getD_set_ne h b.middlewaresId j _ [] (fun h2 => hj h2.symm))

/-- C10: `handler(fn)` allocates its result array at a fresh heap index,
and configuration calls made on the builder afterwards (`use`, `body`,
`query`, `params`, `response`) never modify the previously returned step
sequence. -/
theorem fluent_handler_returns_fresh (h0 : Heap) (ops ops2 : List BuilderOp) (fn : Step) :
    (handlerResult h0 ops fn).1 = (chainState h0 ops).2.length ∧
    (applyOps ops2
        ((chainState h0 ops).1, (handlerResult h0 ops fn).2)).2.getD
        (handlerResult h0 ops fn).1 [] =
      (handlerResult h0 ops fn).2.getD (handlerResult h0 ops fn).1 [] := by
  have hspec := applyOps_spec ops
    { bodySchema := none, querySchema := none, paramsSchema := none,
      responseSchemas := [], middlewaresId := h0.length } h0 [] rfl
  obtain ⟨hmid, hheap, _⟩ := hspec
  have hmid2 : (chainState h0 ops).1.middlewaresId = h0.length := hmid
  have hheap2 : (chainState h0 ops).2 = h0 ++ [[] ++ usedSteps ops] := hheap
  have hr : (handlerResult h0 ops fn).1 = (chainState h0 ops).2.length := rfl
  refine ⟨hr, ?_⟩
  have hne : (handlerResult h0 ops fn).1 ≠ (chainState h0 ops).1.middlewaresId := by
    rw [hr, hmid2, hheap2]
    simp
  exact applyOps_heap_frame ops2 (chainState h0 ops).1 (handlerResult h0 ops fn).2
    (handlerResult h0 ops fn).1 hne

end ETS
